import Mathlib

/-!
Verification of the campus-room-finder core logic (`campus_data_logic.py`).

The Python floats of the source are modelled as exact rationals (`ℚ`); the
source's numeric literals (`1e-12`, `1000`, `60`, ...) become the
corresponding exact rational constants.  Fallible Python code (exceptions
caught by the callers) is modelled with `Option`.  CSV rows are association
lists from column names to cell strings, and a data source that may be
missing on disk is an `Option` around the row list.
-/

section CampusRoomFinder

/- The Batteries rational-number operations are `@[irreducible]`, which blocks
kernel evaluation in `decide`; restore the default reducibility locally so that
concrete runs of the embedded functions can be checked by `decide`. -/
attribute [local semireducible] Rat.add Rat.mul Rat.inv Rat.sub Rat.ofScientific

/-! ## GeometryUtils -/

/-- Guard constant `1e-12` added to the denominator in
`GeometryUtils.point_in_polygon` (line 83 of `campus_data_logic.py`). -/
def eps : ℚ := 1 / 10 ^ 12

/-- Loop body of `GeometryUtils.point_in_polygon`: the crossing test for one
polygon edge.  `pj` is the previous vertex `poly[j]`, `pi` the current vertex
`poly[i]`; both are stored as `(lat, lon)` pairs, so the x-coordinate is the
second component.  Mirrors
`((yi > y) != (yj > y)) and (x < (xj - xi) * (y - yi) / (yj - yi + 1e-12) + xi)`. -/
def edge_intersect (x y : ℚ) (pj pi : ℚ × ℚ) : Bool :=
  (decide (pi.1 > y) != decide (pj.1 > y)) &&
    decide (x < (pj.2 - pi.2) * (y - pi.1) / (pj.1 - pi.1 + eps) + pi.2)

/-- Crossing test of iteration `i` of the `point_in_polygon` loop: the edge
from `poly[j]` to `poly[i]`, where `j` is the previous index
`(i + n - 1) % n` (the Python loop starts with `j = n - 1` and then keeps
`j = i - 1`). -/
def edge_at (lat lon : ℚ) (poly : List (ℚ × ℚ)) (i : ℕ) : Bool :=
  edge_intersect lon lat
    (poly.getD ((i + poly.length - 1) % poly.length) (0, 0))
    (poly.getD i (0, 0))

/-- `GeometryUtils.point_in_polygon`: ray casting with the even-odd rule.
The Python loop runs `i` over `range(n)`, toggling `inside` on each edge
crossing reported by `edge_at`; the empty polygon returns `False`. -/
def point_in_polygon (lat lon : ℚ) (poly : List (ℚ × ℚ)) : Bool :=
  if poly.length = 0 then false
  else
    (List.range poly.length).foldl
      (fun inside i => if edge_at lat lon poly i then !inside else inside)
      false

/-- Python `min` over a list of rationals (`min(seq)` keeps the first minimal
element; the `[]` case raises in Python and is never reached by the caller,
which checks for the empty polygon first). -/
def pyListMin : List ℚ → ℚ
  | [] => 0
  | x :: xs => xs.foldl min x

/-- Python `max` over a list of rationals (the `[]` case is unreachable, as in
`pyListMin`). -/
def pyListMax : List ℚ → ℚ
  | [] => 0
  | x :: xs => xs.foldl max x

/-- `GeometryUtils.calculate_bounding_box`: `[[0, 0], [0, 0]]` for the empty
polygon, otherwise `[[min lat, min lon], [max lat, max lon]]` over the
vertex coordinates. -/
def calculate_bounding_box (poly : List (ℚ × ℚ)) : List (List ℚ) :=
  if poly = [] then [[0, 0], [0, 0]]
  else
    [[pyListMin (poly.map (fun pt => pt.1)), pyListMin (poly.map (fun pt => pt.2))],
     [pyListMax (poly.map (fun pt => pt.1)), pyListMax (poly.map (fun pt => pt.2))]]

/-! ## AccessController -/

/-- User GPS coordinates (`UserLocation` dataclass). -/
structure UserLocation where
  lat : ℚ
  lon : ℚ
deriving DecidableEq

/-- Denial message of `AccessController.is_location_valid` when no location is
supplied (literal string from the source). -/
def gps_unavailable_msg : String :=
  "GPS is not available. This service is restricted to users physically within the MUT campus boundaries."

/-- Denial message of `AccessController.is_location_valid` when the campus
boundary list is empty (literal string from the source). -/
def boundary_unavailable_msg : String :=
  "Campus boundary data is not available."

/-- Denial message of `AccessController.is_location_valid` when the location
lies outside the boundary polygon (literal string from the source). -/
def outside_boundary_msg : String :=
  "You are outside the MUT campus boundaries. This application is only accessible from within campus."

/-- `AccessController.is_location_valid`: three short-circuit denial checks in
source order (missing location, empty boundary, point outside the polygon),
then `(True, "")`. -/
def is_location_valid (campus_boundary : List (ℚ × ℚ))
    (location : Option UserLocation) : Bool × String :=
  match location with
  | none => (false, gps_unavailable_msg)
  | some loc =>
    if campus_boundary.isEmpty then
      (false, boundary_unavailable_msg)
    else if !point_in_polygon loc.lat loc.lon campus_boundary then
      (false, outside_boundary_msg)
    else
      (true, "")

/-- C1: with an absent location `is_location_valid` denies with the
location-unavailable reason for every boundary (so before any boundary or
point-in-polygon inspection); with a present location and an empty boundary it
denies with the boundary-unavailable reason for every location (so before any
point-in-polygon test), and that reason differs from the outside-boundary
reason. -/
theorem checkAccess_short_circuit_order :
    ∀ (boundary : List (ℚ × ℚ)) (loc : UserLocation),
      is_location_valid boundary none = (false, gps_unavailable_msg) ∧
      is_location_valid [] (some loc) = (false, boundary_unavailable_msg) ∧
      boundary_unavailable_msg ≠ outside_boundary_msg := by
  intro boundary loc
  exact ⟨rfl, rfl, by decide⟩

/-- foldl of `min` never exceeds its initial accumulator. -/
theorem foldl_min_le_init : ∀ (xs : List ℚ) (a : ℚ), xs.foldl min a ≤ a
  | [], _ => le_refl _
  | y :: ys, a => le_trans (foldl_min_le_init ys (min a y)) (min_le_left a y)

/-- foldl of `min` is a lower bound of every list element. -/
theorem foldl_min_le_mem : ∀ (xs : List ℚ) (a x : ℚ), x ∈ xs → xs.foldl min a ≤ x
  | y :: ys, a, x, h => by
    rcases List.mem_cons.mp h with rfl | hx
    · exact le_trans (foldl_min_le_init ys (min a x)) (min_le_right a x)
    · exact foldl_min_le_mem ys (min a y) x hx

/-- foldl of `max` is at least its initial accumulator. -/
theorem le_foldl_max_init : ∀ (xs : List ℚ) (a : ℚ), a ≤ xs.foldl max a
  | [], _ => le_refl _
  | y :: ys, a => le_trans (le_max_left a y) (le_foldl_max_init ys (max a y))

/-- foldl of `max` is an upper bound of every list element. -/
theorem le_foldl_max_mem : ∀ (xs : List ℚ) (a x : ℚ), x ∈ xs → x ≤ xs.foldl max a
  | y :: ys, a, x, h => by
    rcases List.mem_cons.mp h with rfl | hx
    · exact le_trans (le_max_right a x) (le_foldl_max_init ys (max a x))
    · exact le_foldl_max_mem ys (max a y) x hx

/-- `pyListMin` bounds every member from below. -/
theorem pyListMin_le (l : List ℚ) (x : ℚ) (h : x ∈ l) : pyListMin l ≤ x := by
  cases l with
  | nil => cases h
  | cons y ys =>
    rcases List.mem_cons.mp h with rfl | hx
    · exact foldl_min_le_init ys x
    · exact foldl_min_le_mem ys y x hx

/-- `pyListMax` bounds every member from above. -/
theorem le_pyListMax (l : List ℚ) (x : ℚ) (h : x ∈ l) : x ≤ pyListMax l := by
  cases l with
  | nil => cases h
  | cons y ys =>
    rcases List.mem_cons.mp h with rfl | hx
    · exact le_foldl_max_init ys x
    · exact le_foldl_max_mem ys y x hx

/-- C9: the bounding box of the empty polygon is `[[0,0],[0,0]]`, and for a
non-empty polygon every vertex lies inside the returned
`[[min_lat, min_lon], [max_lat, max_lon]]` box (inclusive). -/
theorem boundingBox_contains_vertices :
    calculate_bounding_box [] = [[0, 0], [0, 0]] ∧
    ∀ (poly : List (ℚ × ℚ)) (pt : ℚ × ℚ), pt ∈ poly →
      ∃ a b c d, calculate_bounding_box poly = [[a, b], [c, d]] ∧
        a ≤ pt.1 ∧ pt.1 ≤ c ∧ b ≤ pt.2 ∧ pt.2 ≤ d := by
  constructor
  · rfl
  · intro poly pt hmem
    have hne : poly ≠ [] := List.ne_nil_of_mem hmem
    refine ⟨pyListMin (poly.map (fun pt => pt.1)), pyListMin (poly.map (fun pt => pt.2)),
      pyListMax (poly.map (fun pt => pt.1)), pyListMax (poly.map (fun pt => pt.2)),
      ?_, ?_, ?_, ?_, ?_⟩
    · simp [calculate_bounding_box, hne]
    · exact pyListMin_le _ _ (List.mem_map_of_mem _ hmem)
    · exact le_pyListMax _ _ (List.mem_map_of_mem _ hmem)
    · exact pyListMin_le _ _ (List.mem_map_of_mem _ hmem)
    · exact le_pyListMax _ _ (List.mem_map_of_mem _ hmem)

/-- Witness for `boundingBox_contains_vertices` at the concrete polygon
`[(1, 2), (3, 0)]` and its vertex `(1, 2)`. -/
theorem boundingBox_contains_vertices_witness :
    ((1 : ℚ), (2 : ℚ)) ∈ [((1 : ℚ), (2 : ℚ)), (3, 0)] ∧
    ∃ a b c d, calculate_bounding_box [((1 : ℚ), (2 : ℚ)), (3, 0)] = [[a, b], [c, d]] ∧
      a ≤ ((1 : ℚ), (2 : ℚ)).1 ∧ ((1 : ℚ), (2 : ℚ)).1 ≤ c ∧
      b ≤ ((1 : ℚ), (2 : ℚ)).2 ∧ ((1 : ℚ), (2 : ℚ)).2 ≤ d :=
  ⟨by decide,
    boundingBox_contains_vertices.2 [((1 : ℚ), (2 : ℚ)), (3, 0)] ((1 : ℚ), (2 : ℚ)) (by decide)⟩

/-! ## Reversal behaviour of the ray-casting test (C8) -/

/-- a fold that toggles a flag once per satisfied index computes the parity of
the number of satisfied indices. -/
theorem foldl_toggle (f : ℕ → Bool) :
    ∀ (l : List ℕ) (b : Bool),
      l.foldl (fun inside i => if f i then !inside else inside) b
        = xor b (Nat.bodd (l.countP f))
  | [], _ => by simp
  | a :: l, b => by
    rw [List.foldl_cons, foldl_toggle f l, List.countP_cons]
    rcases h : f a
    · simp [h]
    · simp only [h, if_true, Nat.add_one, Nat.bodd_succ]
      cases b <;> cases hb : Nat.bodd (l.countP f) <;> simp [hb]

/-- `point_in_polygon` on a non-empty polygon is the parity of the number of
crossed edges. -/
theorem pip_countP (lat lon : ℚ) (poly : List (ℚ × ℚ)) (h : poly.length ≠ 0) :
    point_in_polygon lat lon poly
      = Nat.bodd ((List.range poly.length).countP (edge_at lat lon poly)) := by
  unfold point_in_polygon
  rw [if_neg h, foldl_toggle]
  simp

/-- `getD` on a reversed list reads the mirrored index. -/
theorem getD_reverse (l : List (ℚ × ℚ)) (i : ℕ) (h : i < l.length) (d : ℚ × ℚ) :
    l.reverse.getD i d = l.getD (l.length - 1 - i) d := by
  rw [List.getD_eq_getElem l.reverse d (by simpa using h),
    List.getD_eq_getElem l d (by omega)]
  rw [List.getElem_reverse]

/-- `getD` with an in-bounds index is a member of the list. -/
theorem getD_mem (l : List (ℚ × ℚ)) (k : ℕ) (h : k < l.length) (d : ℚ × ℚ) :
    l.getD k d ∈ l := by
  rw [List.getD_eq_getElem l d h]
  exact List.getElem_mem h

/-- edge `i` of the reversed polygon is edge `(n - i) % n` of the original
polygon with its endpoints swapped; under the symmetry hypothesis `H` the two
crossing tests agree. -/
theorem edge_at_reverse (lat lon : ℚ) (poly : List (ℚ × ℚ))
    (H : ∀ a ∈ poly, ∀ b ∈ poly, edge_intersect lon lat a b = edge_intersect lon lat b a)
    (i : ℕ) (hi : i < poly.length) :
    edge_at lat lon poly.reverse i
      = edge_at lat lon poly ((poly.length - i) % poly.length) := by
  have hn : 0 < poly.length := lt_of_le_of_lt (Nat.zero_le i) hi
  unfold edge_at
  rw [List.length_reverse]
  rcases Nat.eq_zero_or_pos i with rfl | hip
  · have e1 : (0 + poly.length - 1) % poly.length = poly.length - 1 := by
      rw [Nat.zero_add, Nat.mod_eq_of_lt (by omega : poly.length - 1 < poly.length)]
    have e2 : (poly.length - 0) % poly.length = 0 := by
      rw [Nat.sub_zero, Nat.mod_self]
    rw [e1, e2, e1, getD_reverse poly (poly.length - 1) (by omega),
      getD_reverse poly 0 (by omega)]
    have e3 : poly.length - 1 - (poly.length - 1) = 0 := by omega
    have e4 : poly.length - 1 - 0 = poly.length - 1 := by omega
    rw [e3, e4]
    exact H _ (getD_mem poly 0 (by omega) _) _ (getD_mem poly (poly.length - 1) (by omega) _)
  · have e1 : i + poly.length - 1 = (i - 1) + poly.length := by omega
    have e2 : (i + poly.length - 1) % poly.length = i - 1 := by
      rw [e1, Nat.add_mod_right, Nat.mod_eq_of_lt (by omega)]
    have e3 : (poly.length - i) % poly.length = poly.length - i :=
      Nat.mod_eq_of_lt (by omega)
    have e4 : poly.length - i + poly.length - 1 = (poly.length - i - 1) + poly.length := by
      omega
    have e5 : (poly.length - i + poly.length - 1) % poly.length = poly.length - i - 1 := by
      rw [e4, Nat.add_mod_right, Nat.mod_eq_of_lt (by omega)]
    rw [e2, e3, e5, getD_reverse poly (i - 1) (by omega), getD_reverse poly i (by omega)]
    have e6 : poly.length - 1 - (i - 1) = poly.length - i := by omega
    have e7 : poly.length - 1 - i = poly.length - i - 1 := by omega
    rw [e6, e7]
    exact H _ (getD_mem poly (poly.length - i) (by omega) _)
      _ (getD_mem poly (poly.length - i - 1) (by omega) _)

/-- index flip `i ↦ (n - i) % n` is an involution on `{0, ..., n - 1}`. -/
theorem flip_flip (n i : ℕ) (_hn : 0 < n) (hi : i < n) :
    (n - ((n - i) % n)) % n = i := by
  rcases Nat.eq_zero_or_pos i with rfl | hip
  · simp [Nat.mod_self]
  · have h1 : (n - i) % n = n - i := Nat.mod_eq_of_lt (by omega)
    have h2 : n - (n - i) = i := by omega
    rw [h1, h2, Nat.mod_eq_of_lt hi]

/-- the index flip permutes `List.range n`. -/
theorem flip_map_perm (n : ℕ) (hn : 0 < n) :
    List.Perm ((List.range n).map (fun i => (n - i) % n)) (List.range n) := by
  have hnodup : ((List.range n).map (fun i => (n - i) % n)).Nodup := by
    refine List.Nodup.map_on ?_ (List.nodup_range n)
    intro i hi j hj hij
    have h1 := flip_flip n i hn (List.mem_range.mp hi)
    have h2 := flip_flip n j hn (List.mem_range.mp hj)
    rw [← h1, hij, h2]
  refine (List.perm_ext_iff_of_nodup hnodup (List.nodup_range n)).mpr ?_
  intro x
  constructor
  · intro hx
    rcases List.mem_map.mp hx with ⟨i, _, rfl⟩
    exact List.mem_range.mpr (Nat.mod_lt _ hn)
  · intro hx
    exact List.mem_map.mpr ⟨(n - x) % n, List.mem_range.mpr (Nat.mod_lt _ hn),
      flip_flip n x hn (List.mem_range.mp hx)⟩

/-- C8 (amended): reversing the vertex order of a polygon leaves the
ray-casting result unchanged for every point whose edge-crossing test is
symmetric in the edge endpoints, i.e. for every point outside the tiny
asymmetry band that the `1e-12` denominator guard introduces around each
edge; the unrestricted claim fails (see the counterexample), and convexity
plays no role in the argument. -/
theorem pointInPolygon_reverse_invariant (lat lon : ℚ) (poly : List (ℚ × ℚ))
    (H : ∀ a ∈ poly, ∀ b ∈ poly, edge_intersect lon lat a b = edge_intersect lon lat b a) :
    point_in_polygon lat lon poly.reverse = point_in_polygon lat lon poly := by
  by_cases h0 : poly.length = 0
  · have : poly = [] := List.length_eq_zero.mp h0
    subst this
    rfl
  · have hn : 0 < poly.length := Nat.pos_of_ne_zero h0
    have h0r : poly.reverse.length ≠ 0 := by
      rw [List.length_reverse]
      exact h0
    rw [pip_countP lat lon poly.reverse h0r, pip_countP lat lon poly h0,
      List.length_reverse]
    congr 1
    calc (List.range poly.length).countP (edge_at lat lon poly.reverse)
        = (List.range poly.length).countP
            (fun i => edge_at lat lon poly ((poly.length - i) % poly.length)) := by
          refine List.countP_congr ?_
          intro i hi
          rw [edge_at_reverse lat lon poly H i (List.mem_range.mp hi)]
      _ = ((List.range poly.length).map
            (fun i => (poly.length - i) % poly.length)).countP (edge_at lat lon poly) := by
          rw [List.countP_map]
          rfl
      _ = (List.range poly.length).countP (edge_at lat lon poly) :=
          (flip_map_perm poly.length hn).countP_eq _

/-- signed area of the triangle `(o, p, q)` (z-component of the cross
product), used to state convexity of a vertex cycle. -/
def crossZ (o p q : ℚ × ℚ) : ℚ :=
  (p.1 - o.1) * (q.2 - o.2) - (p.2 - o.2) * (q.1 - o.1)

/-- Modelled from the spec: "convex" polygon (the source has no convexity
code; the spec's testable property quantifies over convex polygons).  A
vertex cycle is strictly convex when every cyclically consecutive vertex
triple turns the same way, i.e. all the cross products have the same strict
sign. -/
def convexCycle (poly : List (ℚ × ℚ)) : Bool :=
  (List.range poly.length).all (fun i =>
    decide (0 < crossZ (poly.getD i (0, 0))
      (poly.getD ((i + 1) % poly.length) (0, 0))
      (poly.getD ((i + 2) % poly.length) (0, 0)))) ||
  (List.range poly.length).all (fun i =>
    decide (crossZ (poly.getD i (0, 0))
      (poly.getD ((i + 1) % poly.length) (0, 0))
      (poly.getD ((i + 2) % poly.length) (0, 0)) < 0))

/-- strictly convex triangle used to refute the unrestricted reversal claim. -/
def cexPoly : List (ℚ × ℚ) := [(0, 0), (1, 1), (0, 2)]

/-- longitude of the refuting point: it lies strictly between the two
slightly different edge thresholds that the `1e-12` guard produces for the
two traversal directions of the edge from `(0, 0)` to `(1, 1)`. -/
def cexLon : ℚ := (10 ^ 24 - 10 ^ 12 - 1) / (2 * (10 ^ 24 - 1))

/-- C8 counterexample: for the strictly convex triangle `cexPoly` and the
point `(1/2, cexLon)`, the ray-casting test answers `true` on the original
vertex order and `false` on the reversed order, so the result is not
invariant under reversal for every convex polygon and point. -/
theorem pointInPolygon_reverse_counterexample :
    convexCycle cexPoly = true ∧
    point_in_polygon (1 / 2) cexLon cexPoly = true ∧
    point_in_polygon (1 / 2) cexLon cexPoly.reverse = false :=
  ⟨by decide, by decide, by decide⟩

/-- Witness for `pointInPolygon_reverse_invariant` at the triangle `cexPoly`
and the point `(1/2, 1/4)`, which satisfies the edge symmetry hypothesis. -/
theorem pointInPolygon_reverse_invariant_witness :
    (∀ a ∈ cexPoly, ∀ b ∈ cexPoly,
        edge_intersect (1 / 4) (1 / 2) a b = edge_intersect (1 / 4) (1 / 2) b a) ∧
    point_in_polygon (1 / 2) (1 / 4) cexPoly.reverse
      = point_in_polygon (1 / 2) (1 / 4) cexPoly :=
  ⟨by decide, pointInPolygon_reverse_invariant (1 / 2) (1 / 4) cexPoly (by decide)⟩

/-! ## DataLoader: boundary CSV parsing

A CSV row produced by `csv.DictReader` is an association list from column
names to cell strings; `row.get(k)` is `rowGet`.  Python's truthiness-based
`a or b` on optional strings is `pyOrStr`.  The two `re.search` patterns of
`DataLoader._parse_coordinate_row` are deterministic (after every greedy
`\d+` the following pattern character can never be a digit), so they are
embedded as maximal-munch scanners over the character list, searching
left-to-right for the first match position exactly as `re.search` does.
`float(...)` on a cell is `pyFloat`, covering the optionally signed decimal
literals that can occur here (no exponent / infinity forms). -/

/-- one CSV row: column name to cell string. -/
abbrev Row := List (String × String)

/-- Python `row.get(k)`: `None` when the column is absent. -/
def rowGet (row : Row) (k : String) : Option String :=
  (row.find? (fun p => p.1 == k)).map (fun p => p.2)

/-- Python `a or b` on optional strings: `a` unless it is `None` or empty. -/
def pyOrStr (a b : Option String) : Option String :=
  match a with
  | some s => if s == "" then b else some s
  | none => b

/-- Python whitespace (`str.strip` / regex `\s`, ASCII range). -/
def isPySpace (c : Char) : Bool :=
  c == ' ' || c == '\t' || c == '\n' || c == '\r' || c.toNat == 11 || c.toNat == 12

/-- Python `str.strip` on a character list. -/
def pyStrip (s : List Char) : List Char :=
  ((s.dropWhile isPySpace).reverse.dropWhile isPySpace).reverse

/-- numeric value of a digit string. -/
def natOfDigits (l : List Char) : ℕ :=
  l.foldl (fun n c => 10 * n + (c.toNat - 48)) 0

/-- scanner for the regex fragment `-?\d+\.\d+`: an optional minus sign, one
or more digits, a dot, one or more digits; returns the rational value of the
matched decimal literal and the unconsumed rest. -/
def matchDecimal (s : List Char) : Option (ℚ × List Char) :=
  let (neg, s1) :=
    match s with
    | '-' :: rest => (true, rest)
    | _ => (false, s)
  let d1 := s1.takeWhile Char.isDigit
  let r1 := s1.dropWhile Char.isDigit
  if d1.isEmpty then none
  else
    match r1 with
    | '.' :: r2 =>
      let d2 := r2.takeWhile Char.isDigit
      let r3 := r2.dropWhile Char.isDigit
      if d2.isEmpty then none
      else
        let mag : ℚ := (natOfDigits d1 : ℚ) + (natOfDigits d2 : ℚ) / 10 ^ d2.length
        some (if neg then -mag else mag, r3)
    | _ => none

/-- case-insensitive literal matcher (`cs` given in lowercase). -/
def matchIns (cs : List Char) (s : List Char) : Option (List Char) :=
  match cs, s with
  | [], rest => some rest
  | c :: cs, x :: xs => if x.toLower == c then matchIns cs xs else none
  | _ :: _, [] => none

/-- matcher for `POINT\s*\(\s*(-?\d+\.\d+)\s+(-?\d+\.\d+)\s*\)` (ignore-case)
anchored at the start of `s`; returns the two captured numbers. -/
def matchWktPoint (s : List Char) : Option (ℚ × ℚ) := do
  let s ← matchIns ['p', 'o', 'i', 'n', 't'] s
  let s := s.dropWhile isPySpace
  let s ← match s with
    | '(' :: r => some r
    | _ => none
  let s := s.dropWhile isPySpace
  let (a, s) ← matchDecimal s
  let s ← match s with
    | c :: r => if isPySpace c then some (r.dropWhile isPySpace) else none
    | [] => none
  let (b, s) ← matchDecimal s
  let s := s.dropWhile isPySpace
  match s with
  | ')' :: _ => some (a, b)
  | _ => none

/-- `re.search` of the `POINT` pattern: try each start position left to
right. -/
def searchWktPoint : List Char → Option (ℚ × ℚ)
  | [] => none
  | c :: cs =>
    match matchWktPoint (c :: cs) with
    | some r => some r
    | none => searchWktPoint cs

/-- matcher for the fallback pattern `(-?\d+\.\d+)[,\s]+(-?\d+\.\d+)` anchored
at the start of `s`. -/
def matchTwoDecimals (s : List Char) : Option (ℚ × ℚ) := do
  let (a, s) ← matchDecimal s
  let s ← match s with
    | c :: r =>
      if c == ',' || isPySpace c then some (r.dropWhile (fun d => d == ',' || isPySpace d))
      else none
    | [] => none
  let (b, _) ← matchDecimal s
  some (a, b)

/-- `re.search` of the fallback two-decimals pattern. -/
def searchTwoDecimals : List Char → Option (ℚ × ℚ)
  | [] => none
  | c :: cs =>
    match matchTwoDecimals (c :: cs) with
    | some r => some r
    | none => searchTwoDecimals cs

/-- Python `float(cell)` for the optionally signed decimal literals occurring
in coordinate cells: optional surrounding whitespace, optional sign, digits
with an optional fractional part (`"1"`, `"1."`, `".5"`, `"-0.748"`, ...);
anything else raises `ValueError`, modelled as `none`. -/
def pyFloat (s : String) : Option ℚ :=
  let t := pyStrip s.data
  let (neg, t1) :=
    match t with
    | '-' :: r => (true, r)
    | '+' :: r => (false, r)
    | _ => (false, t)
  let d1 := t1.takeWhile Char.isDigit
  let r1 := t1.dropWhile Char.isDigit
  match r1 with
  | [] =>
    if d1.isEmpty then none
    else some (if neg then -(natOfDigits d1 : ℚ) else (natOfDigits d1 : ℚ))
  | '.' :: r2 =>
    let d2 := r2.takeWhile Char.isDigit
    let r3 := r2.dropWhile Char.isDigit
    if r3.isEmpty && !(d1.isEmpty && d2.isEmpty) then
      let mag : ℚ := (natOfDigits d1 : ℚ) + (natOfDigits d2 : ℚ) / 10 ^ d2.length
      some (if neg then -mag else mag)
    else none
  | _ => none

/-- column branch of `DataLoader._parse_coordinate_row`: the
`lat`/`latitude`/`y` and `lon`/`longitude`/`x` fallback chains followed by
`float(...)` on both cells; a missing column (`float(None)` raising
`TypeError`) or an unparsable cell (`ValueError`) makes the row fail. -/
def parseColumnPair (row : Row) : Option (ℚ × ℚ) :=
  let lat := pyOrStr (pyOrStr (rowGet row "lat") (rowGet row "latitude")) (rowGet row "y")
  let lon := pyOrStr (pyOrStr (rowGet row "lon") (rowGet row "longitude")) (rowGet row "x")
  match lat, lon with
  | some a, some b =>
    match pyFloat a, pyFloat b with
    | some qa, some qb => some (qa, qb)
    | _, _ => none
  | _, _ => none

/-- `DataLoader._parse_coordinate_row`: try the WKT column (strict `POINT`
pattern, then the two-decimals fallback, both yielding `(lon, lat)` captures
that are swapped to `(lat, lon)`), and otherwise fall through to the
coordinate columns.  `none` models the `ValueError`/`TypeError` that the
caller catches. -/
def _parse_coordinate_row (row : Row) : Option (ℚ × ℚ) :=
  let wkt := pyStrip (((pyOrStr (rowGet row "WKT") (rowGet row "wkt")).getD "").data)
  if wkt.isEmpty then parseColumnPair row
  else
    match searchWktPoint wkt with
    | some (lon, lat) => some (lat, lon)
    | none =>
      match searchTwoDecimals wkt with
      | some (lon, lat) => some (lat, lon)
      | none => parseColumnPair row

/-- `DataLoader.load_campus_boundary`: a missing file (`none` source) yields
`[]`; otherwise each row is parsed, successfully parsed coordinates are
appended in source order, and rows that raise are skipped.  The function
prints diagnostics in the source but returns only the coordinate list. -/
def load_campus_boundary (source : Option (List Row)) : List (ℚ × ℚ) :=
  match source with
  | none => []
  | some rows =>
    rows.foldl
      (fun poly row =>
        match _parse_coordinate_row row with
        | some c => poly ++ [c]
        | none => poly)
      []

/-- the row fold of `load_campus_boundary` is `filterMap` of the row parser. -/
theorem load_campus_boundary_eq_filterMap (rows : List Row) :
    load_campus_boundary (some rows) = rows.filterMap _parse_coordinate_row := by
  show List.foldl _ [] rows = _
  suffices h : ∀ (rs : List Row) (acc : List (ℚ × ℚ)),
      rs.foldl
        (fun poly row =>
          match _parse_coordinate_row row with
          | some c => poly ++ [c]
          | none => poly)
        acc = acc ++ rs.filterMap _parse_coordinate_row by
    simpa using h rows []
  intro rs
  induction rs with
  | nil => intro acc; simp
  | cons r rs ih =>
    intro acc
    rw [List.foldl_cons, List.filterMap_cons]
    cases h : _parse_coordinate_row r with
    | none => simp [h, ih]
    | some c => simp [h, ih ((acc ++ [c])), List.append_assoc]

/-- C3: a boundary CSV row whose `WKT` column is `POINT(37.150 -0.748)`
parses to the vertex `(-0.748, 37.150)`: the loader swaps WKT's lon-lat
order into `(lat, lon)`. -/
theorem wkt_point_swaps_lon_lat :
    _parse_coordinate_row [("WKT", "POINT(37.150 -0.748)")]
      = some (-(748 / 1000 : ℚ), 37150 / 1000) := by decide

/-- C6: a row whose coordinates cannot be parsed is skipped without aborting
the load: the boundary loaded around it is exactly the loads of the rows
before and after it, concatenated in source order. -/
theorem boundary_bad_row_skipped (pre post : List Row) (bad : Row)
    (h : _parse_coordinate_row bad = none) :
    load_campus_boundary (some (pre ++ bad :: post))
      = load_campus_boundary (some pre) ++ load_campus_boundary (some post) := by
  rw [load_campus_boundary_eq_filterMap, load_campus_boundary_eq_filterMap,
    load_campus_boundary_eq_filterMap, List.filterMap_append, List.filterMap_cons, h]

/-- Witness for `boundary_bad_row_skipped`: a non-numeric `lat` cell between
two valid rows. -/
theorem boundary_bad_row_skipped_witness :
    _parse_coordinate_row [("lat", "abc"), ("lon", "36.95")] = none ∧
    load_campus_boundary
        (some ([[("lat", "-0.75"), ("lon", "37.10")]] ++
          [("lat", "abc"), ("lon", "36.95")] :: [[("lat", "-0.76"), ("lon", "37.12")]]))
      = load_campus_boundary (some [[("lat", "-0.75"), ("lon", "37.10")]]) ++
        load_campus_boundary (some [[("lat", "-0.76"), ("lon", "37.12")]]) :=
  ⟨by decide,
    boundary_bad_row_skipped [[("lat", "-0.75"), ("lon", "37.10")]]
      [[("lat", "-0.76"), ("lon", "37.12")]] [("lat", "abc"), ("lon", "36.95")] (by decide)⟩

/-- C7 counterexample: the caller-visible result for a missing boundary file
is identical to the result for a present-but-empty boundary source, so no
caller-distinguishable unavailability signal exists. -/
theorem missing_file_equals_empty_file :
    load_campus_boundary none = load_campus_boundary (some []) := rfl

/-- C7 (amended): a missing boundary file and a present-but-empty boundary
source both return the empty list; the unavailability is only printed to the
log, not returned, so the caller cannot distinguish the two outcomes. -/
theorem load_boundary_missing_and_empty :
    load_campus_boundary none = [] ∧ load_campus_boundary (some []) = [] :=
  ⟨rfl, rfl⟩

/-! ## RoomSearchEngine

`RoomSearchEngine.search` combines case-insensitive substring matches with
the fuzzy matches returned by the third-party `rapidfuzz.process.extract`,
deduplicates them through a Python dict keyed by room name, and sorts the
values by lowercased name (Python's `sorted` is stable; a stable insertion
sort produces the same output for the total preorder used here).  The
`extract` call is passed in as a parameter so that properties that hold for
every fuzzy matcher can be stated as such. -/

/-- room record (`Room` dataclass; `__post_init__` normalises `floor` to a
string, so `floor` is a plain string here). -/
structure Room where
  room_name : String
  building : String
  floor : String
  lat : Option ℚ
  lon : Option ℚ
deriving DecidableEq

/-- Python `str.lower` (ASCII); `String.toLower` itself is not
kernel-reducible, so the lowering is done on the character list. -/
def lowerStr (s : String) : String := ⟨s.data.map Char.toLower⟩

/-- `needle` starts `hay` (character-list prefix test). -/
def startsWithChars : List Char → List Char → Bool
  | [], _ => true
  | _ :: _, [] => false
  | a :: as, b :: bs => a == b && startsWithChars as bs

/-- Python `needle in hay` substring test on character lists. -/
def containsChars (hay needle : List Char) : Bool :=
  match hay with
  | [] => needle.isEmpty
  | _ :: t => startsWithChars needle hay || containsChars t needle

/-- stable insertion into a sorted list: `x` goes before the first element it
compares `le` to, so earlier input elements stay first on ties. -/
def insertSorted (le : α → α → Bool) (x : α) : List α → List α
  | [] => [x]
  | y :: ys => if le x y then x :: y :: ys else y :: insertSorted le x ys

/-- stable insertion sort, modelling Python's stable `sorted`. -/
def insertionSort (le : α → α → Bool) : List α → List α
  | [] => []
  | x :: xs => insertSorted le x (insertionSort le xs)

/-- lexicographic `≤` on character lists by code point, the order Python uses
on the lowercased name keys. -/
def lexLeChars : List Char → List Char → Bool
  | [], _ => true
  | _ :: _, [] => false
  | a :: as, b :: bs =>
    if a.toNat < b.toNat then true
    else if b.toNat < a.toNat then false
    else lexLeChars as bs

/-- sort key comparison `room.room_name.lower()` of the source. -/
def roomLe (a b : Room) : Bool :=
  lexLeChars (lowerStr a.room_name).data (lowerStr b.room_name).data

/-- one assignment `d[k] = v` of a Python dict kept as an association list:
an existing key keeps its position and gets the new value, a new key is
appended. -/
def dictInsert (d : List (String × Room)) (k : String) (v : Room) :
    List (String × Room) :=
  if d.any (fun p => p.1 == k) then
    d.map (fun p => if p.1 == k then (p.1, v) else p)
  else d ++ [(k, v)]

/-- the dict comprehension `{room.room_name: room for room in rooms}`. -/
def dictOfRooms (rooms : List Room) : List (String × Room) :=
  rooms.foldl (fun d r => dictInsert d r.room_name r) []

/-- `RoomSearchEngine.search`: empty query returns a copy of the stored room
list; otherwise the union of the substring matches and the rooms named by
`extract`, deduplicated by name through a dict and sorted by lowercased
name. -/
def search (extract : String → List String → ℕ → ℕ → List (String × ℚ))
    (rooms : List Room) (query : String)
    (fuzzy_limit fuzzy_threshold : ℕ) : List Room :=
  if query == "" then rooms
  else
    let query_lower := lowerStr query
    let substring_matches :=
      rooms.filter (fun r => containsChars (lowerStr r.room_name).data query_lower.data)
    let room_names := rooms.map (fun r => r.room_name)
    let fuzzy_matches := extract query room_names fuzzy_limit fuzzy_threshold
    let fuzzy_names := fuzzy_matches.map (fun m => m.1)
    let fuzzy_rooms := rooms.filter (fun r => fuzzy_names.contains r.room_name)
    let combined_rooms := dictOfRooms (substring_matches ++ fuzzy_rooms)
    insertionSort roomLe (combined_rooms.map (fun p => p.2))

/-- `RoomSearchEngine.get_fuzzy_suggestions`: empty query returns `[]`;
otherwise the names from `extract`, in the extractor's own rank order. -/
def get_fuzzy_suggestions (extract : String → List String → ℕ → ℕ → List (String × ℚ))
    (rooms : List Room) (query : String) (limit threshold : ℕ) : List String :=
  if query == "" then []
  else (extract query (rooms.map (fun r => r.room_name)) limit threshold).map (fun m => m.1)

/-- longest common subsequence length of two character lists, computed with a
fuel argument (`fuel = |a| + |b|` always suffices, and the callers only use
it that way) so that the kernel can evaluate it. -/
def lcsFuel : ℕ → List Char → List Char → ℕ
  | 0, _, _ => 0
  | _ + 1, [], _ => 0
  | _ + 1, _ :: _, [] => 0
  | fuel + 1, a :: as, b :: bs =>
    if a == b then lcsFuel fuel as bs + 1
    else max (lcsFuel fuel (a :: as) bs) (lcsFuel fuel as (b :: bs))

/-- longest common subsequence length. -/
def lcsLen (a b : List Char) : ℕ := lcsFuel (a.length + b.length) a b

/-- Modelled from the spec: the rapidfuzz similarity scorer is third-party
library code absent from the repository; the spec describes it as "a
normalized edit-distance-style similarity measure" on a 0-100 scale with 100
for case-insensitively identical strings.  We use the normalized indel
similarity of the lowercased strings:
`100 * (|a| + |b| - indel(a, b)) / (|a| + |b|) = 200 * lcs(a, b) / (|a| + |b|)`. -/
def simScore (query choice : String) : ℚ :=
  let a := (lowerStr query).data
  let b := (lowerStr choice).data
  if a.length + b.length = 0 then 100
  else ((200 * lcsLen a b : ℕ) : ℚ) / ((a.length + b.length : ℕ) : ℚ)

/-- Modelled from the spec: `rapidfuzz.process.extract(query, choices,
limit, score_cutoff)` keeps the choices scoring at least `score_cutoff`,
sorted by score in decreasing order (stable on ties), truncated to `limit`
entries. -/
def extractSpec (query : String) (choices : List String)
    (limit score_cutoff : ℕ) : List (String × ℚ) :=
  (insertionSort (fun p q => decide (q.2 ≤ p.2))
    ((choices.map (fun c => (c, simScore query c))).filter
      (fun p => decide ((score_cutoff : ℚ) ≤ p.2)))).take limit

/-- `insertSorted` permutes the element onto the list. -/
theorem insertSorted_perm (le : α → α → Bool) (x : α) :
    ∀ l : List α, List.Perm (insertSorted le x l) (x :: l)
  | [] => List.Perm.refl _
  | y :: ys => by
    unfold insertSorted
    by_cases h : le x y = true
    · rw [if_pos h]
    · rw [if_neg h]
      exact List.Perm.trans ((insertSorted_perm le x ys).cons y) (List.Perm.swap x y ys)

/-- `insertionSort` permutes its input. -/
theorem insertionSort_perm (le : α → α → Bool) :
    ∀ l : List α, List.Perm (insertionSort le l) l
  | [] => List.Perm.refl _
  | x :: xs =>
    List.Perm.trans (insertSorted_perm le x (insertionSort le xs))
      ((insertionSort_perm le xs).cons x)

/-- `dictInsert` keeps the stored value's name equal to its key. -/
theorem dictInsert_name_inv (d : List (String × Room)) (r : Room)
    (hd : ∀ p ∈ d, p.2.room_name = p.1) :
    ∀ p ∈ dictInsert d r.room_name r, p.2.room_name = p.1 := by
  intro p hp
  unfold dictInsert at hp
  by_cases h : d.any (fun p => p.1 == r.room_name) = true
  · rw [if_pos h] at hp
    rcases List.mem_map.mp hp with ⟨q, hq, rfl⟩
    by_cases hk : (q.1 == r.room_name) = true
    · rw [if_pos hk]
      exact (eq_of_beq hk).symm
    · rw [if_neg hk]
      exact hd q hq
  · rw [if_neg h] at hp
    rcases List.mem_append.mp hp with hmem | hmem
    · exact hd p hmem
    · rcases List.mem_singleton.mp hmem with rfl
      rfl

/-- `dictInsert` keeps the key list duplicate-free. -/
theorem dictInsert_keys_nodup (d : List (String × Room)) (r : Room)
    (hd : (d.map (fun p => p.1)).Nodup) :
    ((dictInsert d r.room_name r).map (fun p => p.1)).Nodup := by
  unfold dictInsert
  by_cases h : d.any (fun p => p.1 == r.room_name) = true
  · rw [if_pos h]
    have hmapfst : (d.map (fun p => if p.1 == r.room_name then (p.1, r) else p)).map
        (fun p => p.1) = d.map (fun p => p.1) := by
      rw [List.map_map]
      refine List.map_congr_left ?_
      intro p _
      by_cases hk : (p.1 == r.room_name) = true <;> simp [hk, Function.comp]
    rw [hmapfst]
    exact hd
  · rw [if_neg h]
    have hnotin : r.room_name ∉ d.map (fun p => p.1) := by
      intro hmem
      rcases List.mem_map.mp hmem with ⟨q, hq, hqname⟩
      exact h (List.any_eq_true.mpr ⟨q, hq, by rw [hqname]; exact beq_self_eq_true _⟩)
    rw [List.map_append]
    refine List.Nodup.append hd (List.nodup_singleton _) ?_
    intro a ha hb
    have hb' : a ∈ [r.room_name] := by simpa using hb
    rw [List.mem_singleton] at hb'
    rw [hb'] at ha
    exact hnotin ha

/-- the dict built by the comprehension has duplicate-free keys, and each
value's name equals its key. -/
theorem dictOfRooms_inv (rooms : List Room) :
    ((dictOfRooms rooms).map (fun p => p.1)).Nodup ∧
      ∀ p ∈ dictOfRooms rooms, p.2.room_name = p.1 := by
  suffices h : ∀ (rs : List Room) (d : List (String × Room)),
      (d.map (fun p => p.1)).Nodup → (∀ p ∈ d, p.2.room_name = p.1) →
      ((rs.foldl (fun d r => dictInsert d r.room_name r) d).map (fun p => p.1)).Nodup ∧
        ∀ p ∈ rs.foldl (fun d r => dictInsert d r.room_name r) d, p.2.room_name = p.1 by
    exact h rooms [] (by simp) (by simp)
  intro rs
  induction rs with
  | nil => intro d h1 h2; exact ⟨h1, h2⟩
  | cons r rs ih =>
    intro d h1 h2
    exact ih (dictInsert d r.room_name r) (dictInsert_keys_nodup d r h1)
      (dictInsert_name_inv d r h2)

/-- the names of the dict's values are duplicate-free. -/
theorem dictOfRooms_values_names_nodup (rooms : List Room) :
    (((dictOfRooms rooms).map (fun p => p.2)).map Room.room_name).Nodup := by
  rcases dictOfRooms_inv rooms with ⟨hkeys, hnames⟩
  have : ((dictOfRooms rooms).map (fun p => p.2)).map Room.room_name
      = (dictOfRooms rooms).map (fun p => p.1) := by
    rw [List.map_map]
    refine List.map_congr_left ?_
    intro p hp
    exact hnames p hp
  rw [this]
  exact hkeys

/-- C4 (amended): for every fuzzy matcher, every room list whose names are
pairwise distinct, and every query, `search` returns no two rooms with the
same name; the empty query returns the stored room list itself (in stored
order, so sorted by lowercased name exactly when the input was).  Without
the distinct-names hypothesis the claim fails, because the empty query
returns the stored list unchanged (see the counterexample). -/
theorem search_nodup_names
    (extract : String → List String → ℕ → ℕ → List (String × ℚ))
    (rooms : List Room) (query : String) (fuzzy_limit fuzzy_threshold : ℕ)
    (h : (rooms.map Room.room_name).Nodup) :
    ((search extract rooms query fuzzy_limit fuzzy_threshold).map Room.room_name).Nodup ∧
      search extract rooms "" fuzzy_limit fuzzy_threshold = rooms := by
  refine ⟨?_, rfl⟩
  rcases hq : query == ""
  · unfold search
    rw [if_neg (by simp [hq])]
    exact ((insertionSort_perm roomLe _).map Room.room_name).nodup_iff.mpr
      (dictOfRooms_values_names_nodup _)
  · have hq' : query = "" := eq_of_beq hq
    subst hq'
    exact h

/-- Witness for `search_nodup_names` on two distinctly named rooms and the
query `"Lab"`. -/
theorem search_nodup_names_witness :
    (([Room.mk "Library" "Main" "1" none none,
        Room.mk "Lab 1" "Main" "1" none none].map Room.room_name).Nodup) ∧
    ((search extractSpec
        [Room.mk "Library" "Main" "1" none none, Room.mk "Lab 1" "Main" "1" none none]
        "Lab" 5 60).map Room.room_name).Nodup ∧
    search extractSpec
        [Room.mk "Library" "Main" "1" none none, Room.mk "Lab 1" "Main" "1" none none]
        "" 5 60
      = [Room.mk "Library" "Main" "1" none none, Room.mk "Lab 1" "Main" "1" none none] :=
  ⟨by decide,
    (search_nodup_names extractSpec
      [Room.mk "Library" "Main" "1" none none, Room.mk "Lab 1" "Main" "1" none none]
      "Lab" 5 60 (by decide)).1,
    (search_nodup_names extractSpec
      [Room.mk "Library" "Main" "1" none none, Room.mk "Lab 1" "Main" "1" none none]
      "Lab" 5 60 (by decide)).2⟩

/-- C4 counterexample: over a room list that itself contains two rooms named
`"A"`, the empty query returns both, so `search` does return two rooms with
the same name for this engine and query. -/
theorem search_duplicate_names_counterexample :
    ¬ (((search extractSpec
        [Room.mk "A" "Block 1" "" none none, Room.mk "A" "Block 2" "" none none]
        "" 5 60).map Room.room_name).Nodup) := by decide

/-- C5: over exactly the rooms `"Library"`, `"Lab 1"`, `"Lab 2"`, the query
`"lib"` with the default fuzzy limit 5 and threshold 60 returns exactly the
room `"Library"`. -/
theorem search_lib_returns_library :
    search extractSpec
        [Room.mk "Library" "Main" "1" none none,
          Room.mk "Lab 1" "Main" "1" none none,
          Room.mk "Lab 2" "Main" "1" none none]
        "lib" 5 60
      = [Room.mk "Library" "Main" "1" none none] := by decide

/-- C10: for every fuzzy matcher, room list and limits, the suggestions
operation returns `[]` for the empty query, while `search` returns the full
room list for the empty query. -/
theorem suggestions_empty_query :
    ∀ (extract : String → List String → ℕ → ℕ → List (String × ℚ))
      (rooms : List Room) (limit threshold : ℕ),
      get_fuzzy_suggestions extract rooms "" limit threshold = [] ∧
        search extract rooms "" limit threshold = rooms := by
  intro extract rooms limit threshold
  exact ⟨rfl, rfl⟩

/-! ## RouteCalculator

`RouteCalculator.get_walking_route` performs an HTTP request and JSON
decode; every failure (network error, bad status, malformed JSON, missing
`routes` key, empty route list) returns `None`.  The embedding takes the
decoded response as input: `none` covers all the failure modes up to and
including a missing/empty route list collapsing through the
`if not data or "routes" not in data or len(data["routes"]) == 0` guard, and
`some routes` is a well-formed response envelope.  The geometry payload is an
opaque type parameter, passed through untouched. -/

/-- one entry of the service's `routes` list: `distance` in meters,
`duration` in seconds, opaque `geometry`. -/
structure OSRMRoute (α : Type) where
  distance : ℚ
  duration : ℚ
  geometry : α
deriving DecidableEq

/-- `RouteInfo` dataclass: kilometers rounded to 2 decimals, minutes rounded
to 1 decimal, opaque geometry. -/
structure RouteInfo (α : Type) where
  distance_km : ℚ
  duration_minutes : ℚ
  geometry : α
deriving DecidableEq

/-- Python `round` to an integer: round half to even (banker's rounding), as
CPython does for `float.__round__`. -/
def pyRoundHalfEvenInt (q : ℚ) : ℤ :=
  let f := q.floor
  let r := q - (f : ℚ)
  if r < 1 / 2 then f
  else if 1 / 2 < r then f + 1
  else if f % 2 = 0 then f else f + 1

/-- Python `round(x, ndigits)`: banker's rounding at `ndigits` decimal
places. -/
def pyRound (ndigits : ℕ) (x : ℚ) : ℚ :=
  (pyRoundHalfEvenInt (x * 10 ^ ndigits) : ℚ) / 10 ^ ndigits

/-- `RouteCalculator.get_walking_route`, applied to the decoded service
response: take the first route, convert `distance` meters to kilometers
rounded to 2 decimals and `duration` seconds to minutes rounded to 1
decimal, and pass `geometry` through. -/
def get_walking_route {α : Type} (response : Option (List (OSRMRoute α))) :
    Option (RouteInfo α) :=
  match response with
  | none => none
  | some [] => none
  | some (route_data :: _) =>
    some ⟨pyRound 2 (route_data.distance / 1000),
      pyRound 1 (route_data.duration / 60), route_data.geometry⟩

/-- C2 counterexample: on the simulated response with `distance = 1234.5`
and `duration = 615`, the code yields `duration_minutes = 10.2`, not the
claimed `10.3`: `615 / 60 = 10.25` and Python's banker's rounding sends the
tie `10.25` to the even digit `10.2`. -/
theorem walking_route_duration_counterexample :
    (get_walking_route (some [(⟨1234.5, 615, "geo"⟩ : OSRMRoute String)])).map
        (fun r => r.duration_minutes)
      ≠ some (10.3 : ℚ) ∧
    (get_walking_route (some [(⟨1234.5, 615, "geo"⟩ : OSRMRoute String)])).map
        (fun r => r.duration_minutes)
      = some (10.2 : ℚ) := by
  exact ⟨by decide, by decide⟩

/-- C2 (amended): on the simulated response with `distance = 1234.5` and
`duration = 615`, `get_walking_route` yields `distance_km = 1.23`
(`1234.5 / 1000 = 1.2345`, rounded to 2 decimals) and
`duration_minutes = 10.2` (`615 / 60 = 10.25`, a tie that Python's
round-half-to-even sends to `10.2`, not `10.3`), with the geometry payload
passed through unmodified. -/
theorem walking_route_normalization :
    get_walking_route (some [(⟨1234.5, 615, "geo"⟩ : OSRMRoute String)])
      = some (⟨1.23, 10.2, "geo"⟩ : RouteInfo String) := by decide

end CampusRoomFinder
